import Mathlib

/-!
Shallow embedding of the pdfextractor application and verification of its
specification.  The embedding covers:

  * `services/pdfService.ts`: `parsePDF` (document loading / per-page
    rendering) and `extractPages` (page extraction via pdf-lib);
  * `services/geminiService.ts`: `suggestPagesByQuery` (the query matcher,
    in particular its response-parsing tail and the per-page excerpts it
    builds);
  * the `App` component's state handlers: `togglePageSelection`,
    `handleSelectAll`, `handleAiSearch`, `handleDownload`.

Modelling conventions: JS strings are `List Char` where their contents
matter (page text, thumbnails) and `String` for opaque messages/names;
a `Set<number>` of page indices is a `Finset ℕ`; a byte buffer that encodes
a PDF document is modelled abstractly by the sequence of page objects it
encodes; the external libraries (pdf.js, pdf-lib, the AI client, JSON.parse)
appear as inputs or parameters that supply their results.
-/

namespace PdfExtractor

/-- `types.ts` `PDFPagePreview`: one page record produced by `parsePDF`. -/
structure PDFPagePreview where
  index : ℕ
  thumbnail : List Char
  textContent : List Char
deriving DecidableEq

/-- `types.ts` `PDFData`.  `rawBytes` is the original byte buffer, modelled
abstractly by the sequence of page objects the (valid) buffer encodes, each
page object identified by a natural number. -/
structure PDFData where
  name : String
  size : ℕ
  pages : List PDFPagePreview
  rawBytes : List ℕ
deriving DecidableEq

/-- `types.ts` `AppStatus`. -/
inductive AppStatus where
  | IDLE
  | LOADING
  | READY
  | PROCESSING
deriving DecidableEq

/-- A source page as pdf.js exposes it to `parsePDF`: `textItems` are the
`str` fields of `getTextContent().items` in document order, and `rendered`
is the data-URI that rendering this page to a canvas and encoding it
(`canvas.toDataURL`) yields — the render pipeline is deterministic per page,
so we carry its result as a field of the source page. -/
structure SrcPage where
  textItems : List (List Char)
  rendered : List Char
deriving DecidableEq

/-- The input to `parsePDF`: the `File`, together with the view pdf.js
obtains of its bytes (`getDocument`), namely the list of source pages.
`bytes` is the raw buffer kept as `rawBytes` (see `PDFData.rawBytes`). -/
structure SrcFile where
  name : String
  size : ℕ
  srcPages : List SrcPage
  bytes : List ℕ
deriving DecidableEq

/-- The page loop of `parsePDF` (`for i = 1; i <= pdf.numPages; i++`), with
`i` the 1-based physical page number of the head of the remaining page list.
`ctx2d i` models `canvas.getContext('2d')` returning non-null on iteration
`i`; when it is null the source silently skips the page (the `if (context)`
guard), pushing no record.  On success it pushes
`{ index := i - 1, thumbnail, textContent }` where `textContent` is the
text items joined with single spaces (`.join(' ')`). -/
def renderPages (ctx2d : ℕ → Bool) : List SrcPage → ℕ → List PDFPagePreview
  | [], _ => []
  | p :: rest, i =>
    if ctx2d i then
      { index := i - 1, thumbnail := p.rendered,
        textContent := List.intercalate [' '] p.textItems }
        :: renderPages ctx2d rest (i + 1)
    else
      renderPages ctx2d rest (i + 1)

/-- `parsePDF` from `services/pdfService.ts`: reads the file bytes, lets
pdf.js parse them (the `srcPages` field), renders every page in physical
order 1..numPages, and returns the `PDFData` record. -/
def parsePDF (ctx2d : ℕ → Bool) (file : SrcFile) : PDFData :=
  { name := file.name
    size := file.size
    pages := renderPages ctx2d file.srcPages 1
    rawBytes := file.bytes }

/-- The error pdf-lib raises inside `extractPages` when a requested page
index is out of range of the source document (surfaced by the caller as
"Failed to generate PDF."). -/
inductive ExtractError where
  | pageIndexOutOfRange
deriving DecidableEq

/-- pdf-lib `PDFDocument.copyPages(srcDoc, indices)`: copies the source
page at each requested index, in the order given; an index with no such
page makes the call throw. -/
def copyPages {α : Type} (src : List α) : List ℕ → Except ExtractError (List α)
  | [] => .ok []
  | i :: rest =>
    if h : i < src.length then
      match copyPages src rest with
      | .ok pages => .ok (src.get ⟨i, h⟩ :: pages)
      | .error e => .error e
    else
      .error .pageIndexOutOfRange

/-- pdf-lib `newPdfDoc.addPage(page)`: appends a page to the document. -/
def addPage {α : Type} (doc : List α) (page : α) : List α :=
  doc ++ [page]

/-- `extractPages` from `services/pdfService.ts`: loads the original bytes
(the source page-object list), creates a fresh empty document, copies the
requested pages and appends each in turn (`copiedPages.forEach(addPage)`),
then saves.  The saved output buffer is modelled by the page sequence it
encodes. -/
def extractPages {α : Type} (srcPages : List α) (pageIndices : List ℕ) :
    Except ExtractError (List α) :=
  match copyPages srcPages pageIndices with
  | .error e => .error e
  | .ok copiedPages => .ok (copiedPages.foldl addPage [])

/-- A JSON value, as `JSON.parse` produces it.  Numeric literals are
rationals: JavaScript has a single number type, so a parsed element
satisfies `typeof item === number` exactly when it is a `num`. -/
inductive Json where
  | null
  | bool (b : Bool)
  | num (q : ℚ)
  | str (s : String)
  | arr (elems : List Json)
  | obj (fields : List (String × Json))

/-- The predicate `typeof item === number` of the filter inside
`suggestPagesByQuery`, returning the number when it holds. -/
def jsNum : Json → Option ℚ
  | .num q => some q
  | _ => none

/-- The per-page payload `suggestPagesByQuery` builds before the request:
`pages.map(p => ({ index: p.index, content: p.textContent.substring(0, 500) }))`. -/
def excerptsFor (pages : List PDFPagePreview) : List (ℕ × List Char) :=
  pages.map fun p => (p.index, p.textContent.take 500)

/-- The response-handling tail of `suggestPagesByQuery` from
`services/geminiService.ts`.  `text` is `response.text` (`none` when the
field is missing); `jsonParse` is `JSON.parse`, returning `none` when it
throws (the `catch` branch returns `[]`).  A falsy text (missing or empty)
yields `[]`; a parse failure yields `[]`; a parsed non-array yields `[]`;
a parsed array is filtered to its number elements, kept in order. -/
def parseSuggestResponse (text : Option String)
    (jsonParse : String → Option Json) : List ℚ :=
  match text with
  | none => []
  | some t =>
    if t = "" then []
    else
      match jsonParse t with
      | none => []
      | some (.arr elems) => elems.filterMap jsNum
      | some _ => []

/-- JavaScript `String.prototype.trim`: strip whitespace from both ends
(on a string modelled as its character list). -/
def trimChars (s : List Char) : List Char :=
  ((s.dropWhile Char.isWhitespace).reverse.dropWhile Char.isWhitespace).reverse

/-- The `App` component's state hooks: `status`, `pdfData`,
`selectedIndices`, `aiQuery`, `isAiLoading`, `error`. -/
structure AppState where
  status : AppStatus
  pdfData : Option PDFData
  selectedIndices : Finset ℕ
  aiQuery : List Char
  isAiLoading : Bool
  error : Option String
deriving DecidableEq

/-- `togglePageSelection(index)`: copies the previous set, deletes the
index if present, adds it otherwise. -/
def togglePageSelection (index : ℕ) (prev : Finset ℕ) : Finset ℕ :=
  if index ∈ prev then prev.erase index else insert index prev

/-- `handleSelectAll`: no-op without a document; clears the selection when
its size equals the page count, otherwise selects every page index. -/
def handleSelectAll (s : AppState) : AppState :=
  match s.pdfData with
  | none => s
  | some pd =>
    if s.selectedIndices.card = pd.pages.length then
      { s with selectedIndices := ∅ }
    else
      { s with selectedIndices := (pd.pages.map fun p => p.index).toFinset }

/-- The successful path of `handleAiSearch`: guarded by a non-blank query,
a loaded document and no in-flight search; `suggestedIndices` is the list
the awaited `suggestPagesByQuery` call resolved with, and the selection is
replaced wholesale by `new Set(suggestedIndices)` (no bounds check);
`finally` clears `isAiLoading`. -/
def handleAiSearch (suggestedIndices : List ℕ) (s : AppState) : AppState :=
  if trimChars s.aiQuery = [] ∨ s.pdfData = none ∨ s.isAiLoading = true then s
  else
    { s with selectedIndices := suggestedIndices.toFinset, isAiLoading := false }

/-- `handleDownload`: guarded by a loaded document and a non-empty
selection; sorts the selected indices ascending, runs `extractPages`, and
on failure sets the error message, leaving the selection untouched; the
`finally` block restores status `READY` either way.  The second component
is the downloaded output (the new document's page sequence), `none` when
no download happened. -/
def handleDownload (s : AppState) : AppState × Option (List ℕ) :=
  match s.pdfData with
  | none => (s, none)
  | some pd =>
    if s.selectedIndices.card = 0 then (s, none)
    else
      match extractPages pd.rawBytes (s.selectedIndices.sort (· ≤ ·)) with
      | .ok newPdfBytes => ({ s with status := .READY }, some newPdfBytes)
      | .error _ =>
        ({ s with status := .READY, error := some "Failed to generate PDF." }, none)

/-- Placeholder preview used as a `getD` default in indexed statements. -/
def defaultPreview : PDFPagePreview :=
  { index := 0, thumbnail := [], textContent := [] }

/-- Concrete preview builder for the example documents below. -/
def mkPreview (i : ℕ) (text : List Char) : PDFPagePreview :=
  { index := i, thumbnail := [], textContent := text }

/-- A concrete 3-page source file. -/
def exampleFile : SrcFile :=
  { name := "report.pdf", size := 3000,
    srcPages :=
      [{ textItems := [['a'], ['b']], rendered := ['t'] },
       { textItems := [['c']], rendered := ['u'] },
       { textItems := [], rendered := ['v'] }],
    bytes := [0, 1, 2] }

/-- A concrete loaded 5-page document. -/
def exampleDoc5 : PDFData :=
  { name := "doc.pdf", size := 5000,
    pages := [mkPreview 0 [], mkPreview 1 [], mkPreview 2 [],
              mkPreview 3 [], mkPreview 4 []],
    rawBytes := [0, 1, 2, 3, 4] }

/-- A concrete loaded 1-page document. -/
def exampleDoc1 : PDFData :=
  { name := "one.pdf", size := 1000, pages := [mkPreview 0 []], rawBytes := [0] }

/-- Ready state on the 5-page document with out-of-range index 10 selected. -/
def exampleStateOob : AppState :=
  { status := .READY, pdfData := some exampleDoc5, selectedIndices := {10},
    aiQuery := [], isAiLoading := false, error := none }

/-- Ready state on the 1-page document with every page selected. -/
def exampleStateFull : AppState :=
  { status := .READY, pdfData := some exampleDoc1, selectedIndices := {0},
    aiQuery := [], isAiLoading := false, error := none }

/-- Ready state on the 1-page document with nothing selected. -/
def exampleStateEmptySel : AppState :=
  { status := .READY, pdfData := some exampleDoc1, selectedIndices := ∅,
    aiQuery := [], isAiLoading := false, error := none }

/-- Ready state on the 5-page document with a non-blank query pending. -/
def exampleStateAi : AppState :=
  { status := .READY, pdfData := some exampleDoc5, selectedIndices := ∅,
    aiQuery := ['f', 'i', 'n', 'd'], isAiLoading := false, error := none }

/-- The response body used by the specification's parsing example. -/
def exampleBody : String := "[1, 2, \"x\", 4]"

/-- A `JSON.parse` behaviour mapping the example body to its JSON value. -/
def exampleJsonParse : String → Option Json := fun s =>
  if s = exampleBody then
    some (Json.arr [Json.num 1, Json.num 2, Json.str "x", Json.num 4])
  else none

/-- A `JSON.parse` behaviour mapping the body consisting of one
non-integer numeric literal to its JSON value. -/
def fracJsonParse : String → Option Json := fun s =>
  if s = "[1.5]" then some (Json.arr [Json.num (mkRat 3 2)]) else none

/-- A concrete 2-page preview list with text content. -/
def examplePreviews : List PDFPagePreview :=
  [mkPreview 0 ['h', 'i'], mkPreview 1 ['y', 'o']]

/-! ## Helper lemmas -/

/-- When every iteration gets a 2D context, the render loop starting at
physical page `i + 1` emits one record per remaining source page, whose
index fields are `i, i + 1, ...`. -/
theorem renderPages_map_index (ctx2d : ℕ → Bool) (hctx : ∀ i, ctx2d i = true) :
    ∀ (l : List SrcPage) (i : ℕ),
      (renderPages ctx2d l (i + 1)).map (fun p => p.index) =
        (List.range l.length).map (i + ·) := by
  intro l
  induction l with
  | nil => intro i; simp [renderPages]
  | cons p rest ih =>
    intro i
    simp only [renderPages, hctx (i + 1), if_true, List.map_cons,
      Nat.add_sub_cancel, List.length_cons, List.range_succ_eq_map,
      List.map_map]
    refine congrArg (_ :: ·) ?_
    rw [ih (i + 1)]
    refine List.map_congr_left ?_
    intro k _
    simp only [Function.comp_apply]
    omega

/-- When every index is in range, `copyPages` succeeds with the source
pages looked up at the requested positions, in order. -/
theorem copyPages_eq_ok {α : Type} (src : List α) (d : α) :
    ∀ (idxs : List ℕ), (∀ i ∈ idxs, i < src.length) →
      copyPages src idxs = Except.ok (idxs.map fun i => src.getD i d) := by
  intro idxs
  induction idxs with
  | nil => intro _; rfl
  | cons j rest ih =>
    intro h
    have hj : j < src.length := h j (List.mem_cons_self j rest)
    have hrest : ∀ i ∈ rest, i < src.length :=
      fun i hi => h i (List.mem_cons_of_mem j hi)
    simp only [copyPages, dif_pos hj, ih hrest, List.map_cons]
    rw [List.getD_eq_getElem src d hj]
    rfl

/-- If some requested index is out of range, `copyPages` fails. -/
theorem copyPages_oob {α : Type} (src : List α) (i : ℕ) (hge : src.length ≤ i) :
    ∀ (idxs : List ℕ), i ∈ idxs →
      copyPages src idxs = Except.error ExtractError.pageIndexOutOfRange := by
  intro idxs
  induction idxs with
  | nil => intro hmem; cases hmem
  | cons j rest ih =>
    intro hmem
    by_cases hj : j < src.length
    · have hi : i ∈ rest := by
        rcases List.mem_cons.mp hmem with h | h
        · omega
        · exact h
      simp only [copyPages, dif_pos hj, ih hi]
    · simp only [copyPages, dif_neg hj]

/-- Folding `addPage` over a list appends it to the accumulator. -/
theorem foldl_addPage {α : Type} :
    ∀ (l acc : List α), l.foldl addPage acc = acc ++ l := by
  intro l
  induction l with
  | nil => intro acc; simp [List.foldl]
  | cons p rest ih =>
    intro acc
    simp only [List.foldl, addPage, ih (acc ++ [p]), List.append_assoc,
      List.singleton_append]

/-- In-range success case of `extractPages`, with the output spelled out. -/
theorem extractPages_eq_ok {α : Type} (src : List α) (d : α) (idxs : List ℕ)
    (h : ∀ i ∈ idxs, i < src.length) :
    extractPages src idxs = Except.ok (idxs.map fun i => src.getD i d) := by
  simp only [extractPages, copyPages_eq_ok src d idxs h, foldl_addPage,
    List.nil_append]

/-- Out-of-range failure case of `extractPages`. -/
theorem extractPages_oob {α : Type} (src : List α) (idxs : List ℕ) (i : ℕ)
    (hmem : i ∈ idxs) (hge : src.length ≤ i) :
    extractPages src idxs = Except.error ExtractError.pageIndexOutOfRange := by
  simp only [extractPages, copyPages_oob src i hge idxs hmem]

/-! ## Claim theorems -/

/-- C1: for every valid document with P pages (and a drawing context
available on every iteration, the only render path the source takes),
`parsePDF` produces exactly P page records whose index fields are
0..P-1 in strictly increasing order, i.e. physical page number minus 1. -/
theorem parsePDF_produces_all_pages (ctx2d : ℕ → Bool) (file : SrcFile)
    (hctx : ∀ i, ctx2d i = true) :
    (parsePDF ctx2d file).pages.length = file.srcPages.length ∧
    (parsePDF ctx2d file).pages.map (fun p => p.index) =
      List.range file.srcPages.length ∧
    ((parsePDF ctx2d file).pages.map (fun p => p.index)).Pairwise (· < ·) := by
  have hmap : (parsePDF ctx2d file).pages.map (fun p => p.index) =
      List.range file.srcPages.length := by
    have h := renderPages_map_index ctx2d hctx file.srcPages 0
    simpa [parsePDF] using h
  refine ⟨?_, hmap, ?_⟩
  · have := congrArg List.length hmap
    simpa using this
  · rw [hmap]
    exact List.pairwise_lt_range _

/-- Witness for C1 on the concrete 3-page file with contexts available. -/
theorem parsePDF_produces_all_pages_witness :
    ((parsePDF (fun _ => true) exampleFile).pages.length =
        exampleFile.srcPages.length ∧
      (parsePDF (fun _ => true) exampleFile).pages.map (fun p => p.index) =
        List.range exampleFile.srcPages.length ∧
      ((parsePDF (fun _ => true) exampleFile).pages.map
          (fun p => p.index)).Pairwise (· < ·)) ∧
    (parsePDF (fun _ => true) exampleFile).pages.map (fun p => p.index) =
      [0, 1, 2] :=
  ⟨parsePDF_produces_all_pages (fun _ => true) exampleFile (fun _ => rfl),
   by decide⟩

/-- C2: for every source document and duplicate-free sequence of valid page
indices, `extractPages` returns exactly the pages at those indices in
exactly the order given; it never re-sorts. -/
theorem extractPages_exact_order {α : Type} (src : List α) (idxs : List ℕ)
    (d : α) (_hnd : idxs.Nodup) (h : ∀ i ∈ idxs, i < src.length) :
    extractPages src idxs = Except.ok (idxs.map fun i => src.getD i d) :=
  extractPages_eq_ok src d idxs h

/-- Witness for C2: indices [2, 0, 1] on a 5-page document yield the pages
in exactly that order. -/
theorem extractPages_exact_order_witness :
    extractPages [10, 20, 30, 40, 50] [2, 0, 1] = Except.ok [30, 10, 20] := by
  rw [extractPages_exact_order [10, 20, 30, 40, 50] [2, 0, 1] 0
    (by decide) (by decide)]
  rfl

/-- C10: for every valid source document, extracting the empty index
sequence succeeds and produces a document with zero pages. -/
theorem extractPages_empty_ok {α : Type} (src : List α) :
    extractPages src [] = Except.ok [] := rfl

/-- A failed export leaves the whole state untouched except for the error
message and the status restored to READY, and downloads nothing. -/
theorem handleDownload_oob (s : AppState) (pd : PDFData) (i : ℕ)
    (hpd : s.pdfData = some pd) (hi : i ∈ s.selectedIndices)
    (hoob : pd.rawBytes.length ≤ i) :
    (handleDownload s).1 =
      { s with status := .READY, error := some "Failed to generate PDF." } ∧
    (handleDownload s).2 = none := by
  have hcard : s.selectedIndices.card ≠ 0 :=
    Finset.card_ne_zero.mpr ⟨i, hi⟩
  have hsort : i ∈ s.selectedIndices.sort (· ≤ ·) :=
    (Finset.mem_sort _).mpr hi
  have hext := extractPages_oob pd.rawBytes (s.selectedIndices.sort (· ≤ ·))
    i hsort hoob
  simp only [handleDownload, hpd, if_neg hcard, hext]
  exact ⟨trivial, trivial⟩

/-- C3: exporting with an out-of-range selected index fails (the extract
error is surfaced as the "Failed to generate PDF." message, nothing is
downloaded) and leaves the selection untouched, with the session back in
the READY state so the user can retry. -/
theorem handleDownload_oob_atomic (s : AppState) (pd : PDFData) (i : ℕ)
    (hpd : s.pdfData = some pd) (hi : i ∈ s.selectedIndices)
    (hoob : pd.rawBytes.length ≤ i) :
    extractPages pd.rawBytes (s.selectedIndices.sort (· ≤ ·)) =
      Except.error ExtractError.pageIndexOutOfRange ∧
    (handleDownload s).1.selectedIndices = s.selectedIndices ∧
    (handleDownload s).1.error = some "Failed to generate PDF." ∧
    (handleDownload s).1.status = AppStatus.READY ∧
    (handleDownload s).2 = none := by
  obtain ⟨h1, h2⟩ := handleDownload_oob s pd i hpd hi hoob
  rw [h1]
  exact ⟨extractPages_oob pd.rawBytes _ i ((Finset.mem_sort _).mpr hi) hoob,
    rfl, rfl, rfl, h2⟩

/-- Witness for C3: selecting index 10 on the 5-page document makes the
export fail without touching the selection. -/
theorem handleDownload_oob_atomic_witness :
    extractPages exampleDoc5.rawBytes
        (exampleStateOob.selectedIndices.sort (· ≤ ·)) =
      Except.error ExtractError.pageIndexOutOfRange ∧
    (handleDownload exampleStateOob).1.selectedIndices =
      exampleStateOob.selectedIndices ∧
    (handleDownload exampleStateOob).1.error = some "Failed to generate PDF." ∧
    (handleDownload exampleStateOob).1.status = AppStatus.READY ∧
    (handleDownload exampleStateOob).2 = none :=
  handleDownload_oob_atomic exampleStateOob exampleDoc5 10 rfl
    (by decide) (by decide)

/-- C6: toggling the same index twice restores the previous membership of
that index and leaves every other index untouched. -/
theorem toggle_toggle_membership (s : Finset ℕ) (i j : ℕ) :
    j ∈ togglePageSelection i (togglePageSelection i s) ↔ j ∈ s := by
  by_cases hi : i ∈ s
  · have h1 : togglePageSelection i s = s.erase i := if_pos hi
    have h2 : togglePageSelection i (s.erase i) = insert i (s.erase i) :=
      if_neg (Finset.not_mem_erase i s)
    rw [h1, h2, Finset.insert_erase hi]
  · have h1 : togglePageSelection i s = insert i s := if_neg hi
    have h2 : togglePageSelection i (insert i s) = (insert i s).erase i :=
      if_pos (Finset.mem_insert_self i s)
    rw [h1, h2, Finset.erase_insert hi]

/-- Counterexample to C7 as stated: on a fully selected 1-page document,
the first invocation deselects all and the second re-selects all, so two
invocations leave the full selection, not the empty one. -/
theorem selectAll_twice_not_empty :
    (handleSelectAll (handleSelectAll exampleStateFull)).selectedIndices =
      {0} ∧
    (handleSelectAll (handleSelectAll exampleStateFull)).selectedIndices ≠
      (∅ : Finset ℕ) := by
  constructor <;> decide

/-- C7 (amended): on a loaded document whose page indices are distinct,
starting from any selection whose size differs from the page count, the
first invocation selects all pages and the second clears, leaving the
selection empty. -/
theorem selectAll_twice_clears (s : AppState) (pd : PDFData)
    (hpd : s.pdfData = some pd)
    (hnd : (pd.pages.map fun p => p.index).Nodup)
    (hcard : s.selectedIndices.card ≠ pd.pages.length) :
    (handleSelectAll (handleSelectAll s)).selectedIndices = ∅ := by
  have h1 : handleSelectAll s =
      { s with selectedIndices := (pd.pages.map fun p => p.index).toFinset } := by
    simp only [handleSelectAll, hpd, if_neg hcard]
  have hfull : (pd.pages.map fun p => p.index).toFinset.card =
      pd.pages.length := by
    rw [List.toFinset_card_of_nodup hnd, List.length_map]
  rw [h1]
  simp only [handleSelectAll, hpd, hfull, if_true]

/-- Witness for C7 (amended): empty starting selection on the 1-page
document; two invocations leave the selection empty. -/
theorem selectAll_twice_clears_witness :
    (handleSelectAll (handleSelectAll exampleStateEmptySel)).selectedIndices =
      ∅ :=
  selectAll_twice_clears exampleStateEmptySel exampleDoc1 rfl
    (by decide) (by decide)

/-- C8: the query matcher's suggestions replace the selection membership
wholesale, with no bounds check against the page count; an out-of-range
suggestion is surfaced only at export time, as the extract failure
message. -/
theorem aiSearch_unvalidated_install (sugg : List ℕ) (s : AppState)
    (pd : PDFData) (hpd : s.pdfData = some pd)
    (hq : trimChars s.aiQuery ≠ []) (hload : s.isAiLoading = false) :
    (∀ k, k ∈ (handleAiSearch sugg s).selectedIndices ↔ k ∈ sugg) ∧
    (∀ i ∈ sugg, pd.rawBytes.length ≤ i →
      (handleDownload (handleAiSearch sugg s)).1.error =
        some "Failed to generate PDF." ∧
      (handleDownload (handleAiSearch sugg s)).2 = none) := by
  have hguard : ¬ (trimChars s.aiQuery = [] ∨ s.pdfData = none ∨
      s.isAiLoading = true) := by
    push_neg
    exact ⟨hq, by rw [hpd]; exact fun h => Option.noConfusion h,
      by rw [hload]; exact fun h => Bool.noConfusion h⟩
  have hs' : handleAiSearch sugg s =
      { s with selectedIndices := sugg.toFinset, isAiLoading := false } := by
    simp only [handleAiSearch, if_neg hguard]
  constructor
  · intro k
    rw [hs']
    exact List.mem_toFinset
  · intro i hi hoob
    have hpd' : (handleAiSearch sugg s).pdfData = some pd := by
      rw [hs']; exact hpd
    have hi' : i ∈ (handleAiSearch sugg s).selectedIndices := by
      rw [hs']; exact List.mem_toFinset.mpr hi
    obtain ⟨h1, h2⟩ := handleDownload_oob (handleAiSearch sugg s) pd i
      hpd' hi' hoob
    rw [h1]
    exact ⟨rfl, h2⟩

/-- Witness for C8: suggestion [10] on the 5-page document is installed as
the selection and the export then fails. -/
theorem aiSearch_unvalidated_install_witness :
    (∀ k, k ∈ (handleAiSearch [10] exampleStateAi).selectedIndices ↔
      k ∈ [10]) ∧
    (∀ i ∈ [10], exampleDoc5.rawBytes.length ≤ i →
      (handleDownload (handleAiSearch [10] exampleStateAi)).1.error =
        some "Failed to generate PDF." ∧
      (handleDownload (handleAiSearch [10] exampleStateAi)).2 = none) :=
  aiSearch_unvalidated_install [10] exampleStateAi exampleDoc5 rfl
    (by decide) rfl

/-- C4: whenever the response text is missing, fails to parse, or parses
to anything other than an array, the query matcher returns the empty list
(the model's totality reflects that the source catches the parse error
instead of rethrowing). -/
theorem suggestPages_degrades_to_empty (text : Option String)
    (jsonParse : String → Option Json)
    (h : ∀ t, text = some t → ∀ v, jsonParse t = some v →
      ∀ elems, v ≠ Json.arr elems) :
    parseSuggestResponse text jsonParse = [] := by
  cases text with
  | none => rfl
  | some t =>
    by_cases ht : t = ""
    · simp [parseSuggestResponse, ht]
    · cases hp : jsonParse t with
      | none => simp [parseSuggestResponse, ht, hp]
      | some v =>
        cases v with
        | arr elems => exact absurd rfl (h t rfl _ hp elems)
        | null => simp [parseSuggestResponse, ht, hp]
        | bool b => simp [parseSuggestResponse, ht, hp]
        | num q => simp [parseSuggestResponse, ht, hp]
        | str u => simp [parseSuggestResponse, ht, hp]
        | obj fields => simp [parseSuggestResponse, ht, hp]

/-- Witness for C4: a body whose parse fails yields the empty list. -/
theorem suggestPages_degrades_to_empty_witness :
    parseSuggestResponse (some "oops") (fun _ => none) = [] :=
  suggestPages_degrades_to_empty (some "oops") (fun _ => none)
    (fun _ _ _ hv _ => Option.noConfusion hv)

/-- Counterexample to C5 as stated: the filter keeps every JavaScript
number, so the non-integer 3/2 parsed from the body consisting of one
non-integer numeric literal is returned rather than dropped. -/
theorem suggestPages_keeps_noninteger_numbers :
    parseSuggestResponse (some "[1.5]") fracJsonParse = [mkRat 3 2] ∧
    (mkRat 3 2).den ≠ 1 := by
  constructor <;> decide

/-- The number elements the filter keeps sit in the source array in the
same order they are returned. -/
theorem filterMap_jsNum_sublist :
    ∀ (elems : List Json), ((elems.filterMap jsNum).map Json.num).Sublist elems := by
  intro elems
  induction elems with
  | nil => exact List.Sublist.refl []
  | cons j rest ih =>
    cases j with
    | num q => simpa [jsNum] using List.Sublist.cons₂ (Json.num q) ih
    | null => simpa [jsNum] using List.Sublist.cons Json.null ih
    | bool b => simpa [jsNum] using List.Sublist.cons (Json.bool b) ih
    | str u => simpa [jsNum] using List.Sublist.cons (Json.str u) ih
    | arr xs => simpa [jsNum] using List.Sublist.cons (Json.arr xs) ih
    | obj fields => simpa [jsNum] using List.Sublist.cons (Json.obj fields) ih

/-- C5 (amended): a response body that parses to a JSON array is filtered
to its number elements (not integers only — any JavaScript number is
kept), returned in their original array order; on the example body the
result is [1, 2, 4]. -/
theorem suggestPages_filters_numbers (t : String)
    (jsonParse : String → Option Json) (elems : List Json) (ht : t ≠ "")
    (hp : jsonParse t = some (Json.arr elems)) :
    parseSuggestResponse (some t) jsonParse = elems.filterMap jsNum ∧
    ((parseSuggestResponse (some t) jsonParse).map Json.num).Sublist elems := by
  have heq : parseSuggestResponse (some t) jsonParse = elems.filterMap jsNum := by
    simp [parseSuggestResponse, ht, hp]
  exact ⟨heq, heq ▸ filterMap_jsNum_sublist elems⟩

/-- Witness for C5 (amended), on the specification's example body: the
string element is dropped and the integers come back in order. -/
theorem suggestPages_filters_numbers_witness :
    (parseSuggestResponse (some exampleBody) exampleJsonParse =
        [Json.num 1, Json.num 2, Json.str "x", Json.num 4].filterMap jsNum ∧
      ((parseSuggestResponse (some exampleBody) exampleJsonParse).map
          Json.num).Sublist
        [Json.num 1, Json.num 2, Json.str "x", Json.num 4]) ∧
    parseSuggestResponse (some exampleBody) exampleJsonParse =
      [(1 : ℚ), 2, 4] :=
  ⟨suggestPages_filters_numbers exampleBody exampleJsonParse
      [Json.num 1, Json.num 2, Json.str "x", Json.num 4]
      (by decide) rfl,
    by decide⟩

/-- C9: each per-page excerpt sent to the external service is at most 500
characters, is a prefix of that page's text content, and the excerpt at
each position carries the index of the page at the same position of the
original page list. -/
theorem excerpt_bounded_prefix_indexed (pages : List PDFPagePreview)
    (i : ℕ) (h : i < pages.length) :
    (excerptsFor pages).length = pages.length ∧
    (excerptsFor pages).map Prod.fst = pages.map (fun p => p.index) ∧
    (excerptsFor pages).getD i (0, []) =
      ((pages.getD i defaultPreview).index,
        (pages.getD i defaultPreview).textContent.take 500) ∧
    ((pages.getD i defaultPreview).textContent.take 500).length ≤ 500 ∧
    (pages.getD i defaultPreview).textContent.take 500 <+:
      (pages.getD i defaultPreview).textContent := by
  have hlen : (excerptsFor pages).length = pages.length := by
    simp [excerptsFor]
  refine ⟨hlen, ?_, ?_, ?_, ?_⟩
  · simp [excerptsFor]
  · have h2 : i < (excerptsFor pages).length := hlen ▸ h
    rw [List.getD_eq_getElem _ _ h2, List.getD_eq_getElem _ _ h]
    simp [excerptsFor]
  · simp [List.length_take]
  · exact ⟨(pages.getD i defaultPreview).textContent.drop 500,
      List.take_append_drop 500 (pages.getD i defaultPreview).textContent⟩

/-- Witness for C9 on the concrete 2-page preview list at position 1. -/
theorem excerpt_bounded_prefix_indexed_witness :
    (excerptsFor examplePreviews).length = examplePreviews.length ∧
    (excerptsFor examplePreviews).map Prod.fst =
      examplePreviews.map (fun p => p.index) ∧
    (excerptsFor examplePreviews).getD 1 (0, []) =
      ((examplePreviews.getD 1 defaultPreview).index,
        (examplePreviews.getD 1 defaultPreview).textContent.take 500) ∧
    ((examplePreviews.getD 1 defaultPreview).textContent.take 500).length ≤
      500 ∧
    (examplePreviews.getD 1 defaultPreview).textContent.take 500 <+:
      (examplePreviews.getD 1 defaultPreview).textContent :=
  excerpt_bounded_prefix_indexed examplePreviews 1 (by decide)

end PdfExtractor
